import Mathlib

/-!
Verification of the youtube-url-download repository.

The repository ships the browser client (a React `App.js`, stored in
`src/start.bat` after a batch preamble) and the FFmpeg setup script
`src/setup_ffmpeg.js`.  The server-side Download Job Orchestrator described
by the specification is not among the shipped sources, so its operations are
modelled from the specification text (each such definition is marked
`Modelled from the spec:`); everything else below is a shallow embedding of
the shipped JavaScript.
-/

namespace YURLD

/-! ## Client constants (App.js) -/

/-- The `PLATFORMS` object of App.js: `{YOUTUBE: 'youtube', TIKTOK: 'tiktok'}`,
used through `Object.values(PLATFORMS)`. -/
def PLATFORMS : List String := ["youtube", "tiktok"]

/-- The `FORMATS` object of App.js: `{MP4: 'mp4', MP3: 'mp3'}`. -/
def FORMATS : List String := ["mp4", "mp3"]

/-- The axios instance configuration `timeout: 300000` (5 minutes). -/
def CLIENT_TIMEOUT_MS : Nat := 300000

/-- The `MAX_RETRIES = 3` constant of `handleDownload`. -/
def MAX_RETRIES : Nat := 3

/-- The `setInterval(..., 1000)` period of the progress-polling loop in
`handleDownload`. -/
def POLL_INTERVAL_MS : Nat := 1000

/-! ## Client URL validation (`validateUrl` in App.js) -/

/-- Embedding of JavaScript `haystack.includes(needle)` on the character
lists of the two strings. -/
def listHasSub (needle : List Char) : List Char → Bool
  | [] => needle.isEmpty
  | c :: cs => List.isPrefixOf needle (c :: cs) || listHasSub needle cs

/-- JavaScript `s.includes(sub)`. -/
def strIncludes (s sub : String) : Bool := listHasSub sub.toList s.toList

/-- JavaScript `s.toLowerCase()` restricted to the ASCII case mapping. -/
def strToLower (s : String) : String := String.mk (s.data.map Char.toLower)

/-- JavaScript `s.trim()`: strip whitespace from both ends. -/
def strTrim (s : String) : String :=
  String.mk (((s.data.dropWhile Char.isWhitespace).reverse.dropWhile
    Char.isWhitespace).reverse)

/-- Outcome of `new URL(url)`: either a parsed object exposing `hostname`,
or a thrown error (caught by `validateUrl`). -/
inductive UrlParse
  | ok (hostname : String)
  | err
  deriving DecidableEq, Repr

/-- Embedding of `validateUrl` (App.js): returns `some errorMessage` on
rejection and `none` on acceptance.  `parsed` is the outcome of
`new URL(url)`; the hostname is lowercased as in the source. -/
def validateUrl (platform : String) (parsed : UrlParse) : Option String :=
  match parsed with
  | .err => some "Please enter a valid URL"
  | .ok host =>
    let hostname := strToLower host
    if platform = "youtube" then
      if !(strIncludes hostname "youtube.com") && !(strIncludes hostname "youtu.be") then
        some "Please enter a valid YouTube URL"
      else none
    else if platform = "tiktok" then
      if !(strIncludes hostname "tiktok.com") then
        some "Please enter a valid TikTok URL"
      else none
    else none

/-! ## Client intake (`handleDownload` validation prologue) -/

/-- The JSON body sent by `api.post('/api/download', ...)`. -/
structure DownloadRequest where
  url : String
  platform : String
  format : String
  deriving DecidableEq, Repr

/-- Result of the validation prologue of `handleDownload`: either an early
`return` after `setError(...)`, or the POST with the given body. -/
inductive IntakeResult
  | rejected (errMsg : String)
  | posted (body : DownloadRequest)
  deriving DecidableEq, Repr

/-- Embedding of the validation prologue of `handleDownload` (App.js):
empty URL, `validateUrl`, platform membership and format membership are
checked in this order before any POST is made. -/
def handleDownloadIntake (url platform format : String) (parsed : UrlParse) :
    IntakeResult :=
  if url = "" then .rejected "Please enter a URL"
  else
    match validateUrl platform parsed with
    | some e => .rejected e
    | none =>
      if !(PLATFORMS.contains platform) then .rejected "Invalid platform selected"
      else if !(FORMATS.contains format) then .rejected "Invalid format selected"
      else .posted ⟨strTrim url, strToLower platform, strToLower format⟩

/-! ## Client POST phase of `handleDownload` -/

/-- The pieces of React state touched by `handleDownload` around the POST. -/
structure ClientState where
  downloading : Bool
  progress : Nat
  message : String
  error : String
  pollingStarted : Bool
  deriving DecidableEq, Repr

/-- Outcome of the awaited `api.post('/api/download', ...)` promise. -/
inductive PostOutcome
  | resolved (download_id : Nat) (status : String)
  | rejected
  deriving DecidableEq, Repr

/-- Embedding of `handleDownload` after validation passes:
`setDownloading(true); setError(''); await api.post(...)`.  The `await` has
no `try`/`catch`, so a rejected promise aborts the async function right
there: the interval is never installed and no state is touched afterwards.
On a resolved promise the status message is set and the polling interval is
installed. -/
def handleDownloadPost (s : ClientState) (post : PostOutcome) : ClientState :=
  let s1 := { s with downloading := true, error := "" }
  match post with
  | .rejected => s1
  | .resolved _ status =>
    let s2 := { s1 with
      message := if status = "in_progress" then "Download already in progress..."
                 else "Starting download..." }
    { s2 with pollingStarted := true }

/-! ## Client polling loop (`setInterval` callback in `handleDownload`) -/

/-- Outcome of one `api.get('/api/progress/' + downloadId)` call: a resolved
response carrying `{status, progress, message}`, or a rejection whose
optional `err.response?.data?.message` feeds the surfaced error text. -/
inductive PollOutcome
  | ok (status : String) (progress : Nat) (message : String)
  | err (respMessage : Option String)
  deriving DecidableEq, Repr

/-- The client state driven by the polling callback.  `intervalActive`
models whether the `setInterval` timer is still installed;
`fileRequested` models the `window.location.href = .../api/download/id/file`
navigation. -/
structure PollState where
  retryCount : Nat
  intervalActive : Bool
  downloading : Bool
  progress : Nat
  message : String
  error : String
  fileRequested : Bool
  deriving DecidableEq, Repr

/-- Embedding of one firing of the polling callback (App.js lines 419-463).
On a response: progress and message are stored, `status === 'completed'`
clears the interval and navigates to the file endpoint, `status === 'error'`
clears the interval and surfaces the message (with the `|| 'Download
failed'` fallback).  On a rejection: `retryCount` is incremented and once it
reaches `MAX_RETRIES` the interval is cleared and
`err.response?.data?.message || 'Failed to get download progress'` is
surfaced. -/
def pollStep (s : PollState) (r : PollOutcome) : PollState :=
  if !s.intervalActive then s
  else
    match r with
    | .ok status p m =>
      let s1 := { s with progress := p, message := m }
      if status = "completed" then
        { s1 with intervalActive := false, downloading := false, fileRequested := true }
      else if status = "error" then
        { s1 with intervalActive := false, downloading := false,
                  error := if m = "" then "Download failed" else m }
      else s1
    | .err rm =>
      let rc := s.retryCount + 1
      if MAX_RETRIES ≤ rc then
        { s with retryCount := rc, intervalActive := false, downloading := false,
                 error := rm.getD "Failed to get download progress" }
      else { s with retryCount := rc }

/-- Iterated firings of the polling callback. -/
def pollRun (s : PollState) (rs : List PollOutcome) : PollState :=
  rs.foldl pollStep s

/-! ## FFmpeg setup script (`src/setup_ffmpeg.js`) -/

/-- Filesystem side effects of the setup script, in order of occurrence. -/
inductive FsAction
  | mkdirExtractPath
  | expandArchive
  | unlinkZip
  deriving DecidableEq, Repr

/-- Embedding of the `https.get(...).on('error', ...)` handler: it logs and
calls `fs.unlinkSync(DOWNLOAD_PATH)`. -/
def onDownloadError : List FsAction := [.unlinkZip]

/-- Embedding of the `file.on('finish', ...)` handler: make the extract
directory if missing, run `Expand-Archive` inside `try`, and only on success
`fs.unlinkSync(DOWNLOAD_PATH)`; the `catch` block only logs. -/
def onDownloadFinish (extractDirExists extractionSucceeds : Bool) : List FsAction :=
  (if extractDirExists then [] else [.mkdirExtractPath]) ++
  (if extractionSucceeds then [.expandArchive, .unlinkZip] else [.expandArchive])

/-! ## Server-side orchestrator, modelled from the spec

The orchestrator itself (Job Registry, Lifecycle Controller, Progress
Cache, Retrieval Endpoint) is not among the shipped sources; the
definitions below follow the specification sections 3, 4 and 6. -/

/-- Modelled from the spec: the job state machine states of section 4.2
(`queued → running → {completed, failed}`); the server implementation is
missing from the repository sources. -/
inductive JobStatus
  | queued
  | running
  | completed
  | failed
  deriving DecidableEq, Repr

/-- Modelled from the spec: the deduplication key (normalized URL, platform,
target format) of section 3; the server implementation is missing. -/
structure DedupKey where
  url : String
  platform : String
  format : String
  deriving DecidableEq, Repr

/-- Modelled from the spec: a Job record of section 3 (id, dedup key,
status, progress in [0,100], message, output bytes set only on success);
the server implementation is missing. -/
structure Job where
  id : Nat
  key : DedupKey
  status : JobStatus
  progress : Nat
  message : String
  output : Option (List Nat)
  deriving DecidableEq, Repr

/-- Modelled from the spec: a job is active while `queued` or `running`
(section 3 invariant); the server implementation is missing. -/
def Job.isActive (j : Job) : Bool :=
  j.status == .queued || j.status == .running

/-- Modelled from the spec: the in-memory Job Registry of section 4.1; the
server implementation is missing. -/
structure Registry where
  jobs : List Job
  nextId : Nat
  deriving DecidableEq, Repr

/-- Modelled from the spec: `findActive(key)` of section 4.1; the server
implementation is missing. -/
def findActive (r : Registry) (k : DedupKey) : Option Nat :=
  (r.jobs.find? fun j => j.key == k && j.isActive).map Job.id

/-- Modelled from the spec: `registerOrAttach(key)` of section 4.1, the
atomic check-then-create; the server implementation is missing.  Returns
the updated registry, the job id and the `attached` flag. -/
def registerOrAttach (r : Registry) (k : DedupKey) : Registry × Nat × Bool :=
  match findActive r k with
  | some id => (r, id, true)
  | none =>
    (⟨⟨r.nextId, k, .queued, 0, "", none⟩ :: r.jobs, r.nextId + 1⟩, r.nextId, false)

/-- Modelled from the spec: the `POST /api/download` response body of
section 6; the server implementation is missing. -/
structure SubmitResponse where
  download_id : Nat
  status : String
  deriving DecidableEq, Repr

/-- Modelled from the spec: intake handling of `POST /api/download`
(sections 2 and 4.2): attach to an active job and answer `in_progress`, or
create a job, launch the Fetcher Adapter (the returned Bool) and answer
`started`; the server implementation is missing. -/
def postDownload (r : Registry) (k : DedupKey) : Registry × SubmitResponse × Bool :=
  match registerOrAttach r k with
  | (r1, id, true) => (r1, ⟨id, "in_progress"⟩, false)
  | (r1, id, false) => (r1, ⟨id, "started"⟩, true)

/-- Modelled from the spec: the `GET /api/progress/{id}` response body of
section 6; the server implementation is missing. -/
structure ProgressSnapshot where
  status : JobStatus
  progress : Nat
  message : String
  deriving DecidableEq, Repr

/-- Snapshot published to the Progress Cache for a job. -/
def snapOf (j : Job) : ProgressSnapshot := ⟨j.status, j.progress, j.message⟩

/-- Modelled from the spec: `getProgress(job-id)` of section 4.4, `none`
standing for the 404 on an unknown id; the server implementation is
missing. -/
def getProgress (r : Registry) (id : Nat) : Option ProgressSnapshot :=
  (r.jobs.find? fun j => j.id == id).map snapOf

/-- Modelled from the spec: result of `GET /api/download/{id}/file` in
sections 4.4 and 6; the server implementation is missing. -/
inductive RetrieveResult
  | fileBytes (b : List Nat)
  | notReady
  | notFound
  deriving DecidableEq, Repr

/-- Modelled from the spec: `retrieve(job-id)` of section 4.4 — bytes only
when `completed`, `NotReady` while `queued`/`running`, `NotFound` when
`failed` or unknown; the server implementation is missing. -/
def retrieve (r : Registry) (id : Nat) : RetrieveResult :=
  match r.jobs.find? fun j => j.id == id with
  | none => .notFound
  | some j =>
    match j.status, j.output with
    | .completed, some b => .fileBytes b
    | .completed, none => .notFound
    | .failed, _ => .notFound
    | _, _ => .notReady

/-- Modelled from the spec: events the Lifecycle Controller receives from
the Fetcher Adapter for one job (section 4.2); the server implementation is
missing. -/
inductive JobEvent
  | start (id : Nat)
  | report (id : Nat) (p : Nat) (m : String)
  | complete (id : Nat) (out : List Nat)
  | fail (id : Nat) (reason : String)
  deriving DecidableEq, Repr

/-- The job id an event addresses. -/
def eventId : JobEvent → Nat
  | .start id => id
  | .report id _ _ => id
  | .complete id _ => id
  | .fail id _ => id

/-- Modelled from the spec: the per-job state machine transitions of
section 4.2 — `queued → running` on launch; progress events clamp percent
monotonically into [0,100]; `running → completed` forces percent 100 and
records the output; `running → failed` records the reason; the server
implementation is missing. -/
def applyEvent (e : JobEvent) (j : Job) : Job :=
  match e with
  | .start _ => if j.status == .queued then { j with status := .running } else j
  | .report _ p m =>
    if j.status == .running then
      { j with progress := min 100 (max j.progress p), message := m }
    else j
  | .complete _ out =>
    if j.status == .running then
      { j with status := .completed, progress := 100, output := some out }
    else j
  | .fail _ reason =>
    if j.status == .running then
      { j with status := .failed, message := reason }
    else j

/-- Apply a job mutation to the job with the given id. -/
def updateJob (r : Registry) (id : Nat) (f : Job → Job) : Registry :=
  ⟨r.jobs.map fun j => if j.id == id then f j else j, r.nextId⟩

/-- Modelled from the spec: one orchestrator-level event — an intake
submission or a Fetcher Adapter event routed to its job; the server
implementation is missing. -/
inductive OrchEvent
  | submit (k : DedupKey)
  | job (e : JobEvent)
  deriving DecidableEq, Repr

/-- One orchestrator step. -/
def orchStep (r : Registry) (e : OrchEvent) : Registry :=
  match e with
  | .submit k => (postDownload r k).1
  | .job e => updateJob r (eventId e) (applyEvent e)

/-- The registry at process start: no jobs. -/
def emptyRegistry : Registry := ⟨[], 0⟩

/-- The registry reached from process start by a sequence of events. -/
def runOrch (es : List OrchEvent) : Registry :=
  es.foldl orchStep emptyRegistry

/-- Well-formedness of one job record relative to the registry's id bound:
progress in range, id already allocated, output present when completed. -/
def JobWF (n : Nat) (j : Job) : Prop :=
  j.progress ≤ 100 ∧ j.id < n ∧ (j.status = .completed → j.output.isSome = true)

/-- Registry well-formedness: every job record is well formed. -/
def RegWF (r : Registry) : Prop :=
  ∀ j ∈ r.jobs, JobWF r.nextId j

/-- The progress value a polling client observes for a job id (0 before the
job exists). -/
def obsProgress (r : Registry) (id : Nat) : Nat :=
  ((getProgress r id).map ProgressSnapshot.progress).getD 0

/-- The sequence of progress values observed after each event of a run. -/
def obsTrace (r : Registry) (id : Nat) : List OrchEvent → List Nat
  | [] => []
  | e :: es => obsProgress (orchStep r e) id :: obsTrace (orchStep r e) id es

/-- Modelled from the spec: the timeout policy of section 4.2 — a job
exceeding the maximum wall-clock duration (matching the end-to-end client
timeout) is force-transitioned to `failed` with a timeout reason; the
server implementation is missing. -/
def MAX_JOB_WALL_MS : Nat := CLIENT_TIMEOUT_MS

/-- Modelled from the spec: timeout enforcement of section 4.2 on one job;
the returned Bool records that the subprocess was terminated; the server
implementation is missing. -/
def enforceTimeout (j : Job) (elapsedMs : Nat) : Job × Bool :=
  if MAX_JOB_WALL_MS < elapsedMs && j.isActive then
    ({ j with status := .failed, message := "timeout" }, true)
  else (j, false)

/-- Repeated submissions of the same request: each call goes through
`postDownload`; the Nat component counts Fetcher Adapter launches. -/
def submitMany (r : Registry) (k : DedupKey) : Nat → Registry × List SubmitResponse × Nat
  | 0 => (r, [], 0)
  | n + 1 =>
    ((submitMany (postDownload r k).1 k n).1,
     (postDownload r k).2.1 :: (submitMany (postDownload r k).1 k n).2.1,
     (if (postDownload r k).2.2 then 1 else 0) +
       (submitMany (postDownload r k).1 k n).2.2)

/-- The dedup key of the spec's double-submission scenario (section 8). -/
def demoKey : DedupKey := ⟨"https://youtu.be/abc", "youtube", "mp3"⟩

/-! ## Helper lemmas -/

/-- One polling-callback firing preserves "while the interval is installed,
fewer than `MAX_RETRIES` errors have been counted". -/
theorem pollStep_retry_inv (s : PollState) (r : PollOutcome)
    (h : s.intervalActive = true → s.retryCount < MAX_RETRIES) :
    (pollStep s r).intervalActive = true → (pollStep s r).retryCount < MAX_RETRIES := by
  by_cases ha : s.intervalActive = true
  · cases r with
    | ok status p m =>
      by_cases hc : status = "completed"
      · simp [pollStep, ha, hc]
      · by_cases he : status = "error"
        · simp [pollStep, ha, hc, he]
        · simp only [pollStep, ha, Bool.not_true, Bool.false_eq_true, if_false, hc, he,
            if_true, ite_false]
          intro
          exact h ha
    | err rm =>
      by_cases hr : MAX_RETRIES ≤ s.retryCount + 1
      · simp [pollStep, ha, hr]
      · simp only [pollStep, ha, Bool.not_true, Bool.false_eq_true, if_false, hr, ite_false]
        intro
        omega
  · have hs : pollStep s r = s := by
      have ha' : s.intervalActive = false := by
        cases hsa : s.intervalActive
        · rfl
        · exact absurd hsa ha
      simp [pollStep, ha']
    rw [hs]
    exact h

/-- The whole polling loop preserves the retry-count invariant. -/
theorem pollRun_retry_inv (rs : List PollOutcome) (s : PollState)
    (h : s.intervalActive = true → s.retryCount < MAX_RETRIES) :
    (pollRun s rs).intervalActive = true → (pollRun s rs).retryCount < MAX_RETRIES := by
  induction rs generalizing s with
  | nil => exact h
  | cons r rs ih => exact ih (pollStep s r) (pollStep_retry_inv s r h)

/-- `applyEvent` never changes a job's id. -/
theorem applyEvent_id (e : JobEvent) (j : Job) : (applyEvent e j).id = j.id := by
  cases e <;> (simp only [applyEvent]; split <;> rfl)

/-- Looking a job up after `updateJob` is looking it up before and applying
the (id-preserving) mutation. -/
theorem find?_updateJob (r : Registry) (id0 id : Nat) (f : Job → Job)
    (hf : ∀ j, (f j).id = j.id) :
    ((updateJob r id0 f).jobs.find? fun j => j.id == id) =
      ((r.jobs.find? fun j => j.id == id).map
        fun j => if j.id == id0 then f j else j) := by
  show ((r.jobs.map fun j => if j.id == id0 then f j else j).find?
      fun j => j.id == id) = _
  rw [List.find?_map]
  have hp : ((fun j : Job => j.id == id) ∘ fun j => if j.id == id0 then f j else j) =
      fun j : Job => j.id == id := by
    funext j
    by_cases h : (j.id == id0) = true
    · simp [Function.comp, h, hf]
    · simp [Function.comp, h]
  rw [hp]

/-- `applyEvent` preserves job well-formedness. -/
theorem jobWF_applyEvent (n : Nat) (e : JobEvent) (j : Job) (h : JobWF n j) :
    JobWF n (applyEvent e j) := by
  obtain ⟨h1, h2, h3⟩ := h
  cases e with
  | start id =>
    simp only [applyEvent]
    split
    · exact ⟨h1, h2, fun hc => nomatch hc⟩
    · exact ⟨h1, h2, h3⟩
  | report id p m =>
    simp only [applyEvent]
    split
    · exact ⟨Nat.min_le_left _ _, h2, h3⟩
    · exact ⟨h1, h2, h3⟩
  | complete id out =>
    simp only [applyEvent]
    split
    · exact ⟨Nat.le_refl _, h2, fun _ => rfl⟩
    · exact ⟨h1, h2, h3⟩
  | fail id reason =>
    simp only [applyEvent]
    split
    · exact ⟨h1, h2, fun hc => nomatch hc⟩
    · exact ⟨h1, h2, h3⟩

/-- `applyEvent` never decreases a job's progress (given it is in range). -/
theorem applyEvent_progress_mono (e : JobEvent) (j : Job) (h : j.progress ≤ 100) :
    j.progress ≤ (applyEvent e j).progress := by
  cases e with
  | start id => simp only [applyEvent]; split <;> exact Nat.le_refl _
  | report id p m =>
    simp only [applyEvent]
    split
    · exact le_min h (Nat.le_max_left _ _)
    · exact Nat.le_refl _
  | complete id out =>
    simp only [applyEvent]
    split
    · exact h
    · exact Nat.le_refl _
  | fail id reason => simp only [applyEvent]; split <;> exact Nat.le_refl _

/-- The registry part of `postDownload` is the one of `registerOrAttach`. -/
theorem postDownload_fst (r : Registry) (k : DedupKey) :
    (postDownload r k).1 = (registerOrAttach r k).1 := by
  unfold postDownload
  rcases registerOrAttach r k with ⟨r1, id, b⟩
  cases b <;> rfl

/-- `registerOrAttach` preserves registry well-formedness. -/
theorem regWF_registerOrAttach (r : Registry) (k : DedupKey) (h : RegWF r) :
    RegWF (registerOrAttach r k).1 := by
  unfold registerOrAttach
  cases hfa : findActive r k with
  | some id => exact h
  | none =>
    intro j hj
    simp only [List.mem_cons] at hj
    rcases hj with rfl | hj
    · exact ⟨Nat.zero_le 100, Nat.lt_succ_self _, fun hc => nomatch hc⟩
    · obtain ⟨h1, h2, h3⟩ := h j hj
      exact ⟨h1, Nat.lt_succ_of_lt h2, h3⟩

/-- `updateJob` with a well-formedness-preserving mutation preserves
registry well-formedness. -/
theorem regWF_updateJob (r : Registry) (id : Nat) (f : Job → Job) (h : RegWF r)
    (hf : ∀ j, JobWF r.nextId j → JobWF r.nextId (f j)) :
    RegWF (updateJob r id f) := by
  intro j hj
  simp only [updateJob, List.mem_map] at hj
  obtain ⟨j0, hj0, rfl⟩ := hj
  by_cases hid : (j0.id == id) = true
  · simp only [hid, if_true]
    exact hf j0 (h j0 hj0)
  · simp only [hid, if_false]
    exact h j0 hj0

/-- Every orchestrator step preserves registry well-formedness. -/
theorem regWF_orchStep (r : Registry) (e : OrchEvent) (h : RegWF r) :
    RegWF (orchStep r e) := by
  cases e with
  | submit k =>
    show RegWF (postDownload r k).1
    rw [postDownload_fst]
    exact regWF_registerOrAttach r k h
  | job je =>
    exact regWF_updateJob r (eventId je) (applyEvent je) h
      (fun j hj => jobWF_applyEvent _ je j hj)

/-- The empty registry is well formed. -/
theorem regWF_empty : RegWF emptyRegistry := by
  intro j hj
  cases hj

/-- Folding orchestrator steps preserves registry well-formedness. -/
theorem regWF_foldl :
    ∀ (es : List OrchEvent) (r : Registry), RegWF r → RegWF (es.foldl orchStep r)
  | [], _, h => h
  | e :: es, r, h => regWF_foldl es (orchStep r e) (regWF_orchStep r e h)

/-- Every registry reachable from process start is well formed. -/
theorem regWF_runOrch (es : List OrchEvent) : RegWF (runOrch es) :=
  regWF_foldl es emptyRegistry regWF_empty

/-- One orchestrator step never decreases the progress a polling client
observes for any job id. -/
theorem obs_mono (r : Registry) (e : OrchEvent) (id : Nat) (h : RegWF r) :
    obsProgress r id ≤ obsProgress (orchStep r e) id := by
  cases e with
  | submit k =>
    show obsProgress r id ≤ obsProgress (postDownload r k).1 id
    rw [postDownload_fst]
    unfold registerOrAttach
    cases hfa : findActive r k with
    | some jid => exact Nat.le_refl _
    | none =>
      unfold obsProgress getProgress
      cases hfi : r.jobs.find? (fun j => j.id == id) with
      | none =>
        exact Nat.zero_le _
      | some j =>
        have hmem := List.mem_of_find?_eq_some hfi
        have hid : (j.id == id) = true := by simpa using List.find?_some hfi
        have hlt : j.id < r.nextId := (h j hmem).2.1
        have hne : (r.nextId == id) = false := by
          rw [beq_eq_false_iff_ne]
          rw [beq_iff_eq] at hid
          omega
        show _ ≤ ((List.find? _ (⟨r.nextId, k, .queued, 0, "", none⟩ :: r.jobs)).map
          snapOf |>.map ProgressSnapshot.progress).getD 0
        rw [List.find?_cons_of_neg _ (by simp [hne]), hfi]
  | job je =>
    show obsProgress r id ≤
      obsProgress (updateJob r (eventId je) (applyEvent je)) id
    unfold obsProgress getProgress
    rw [find?_updateJob r (eventId je) id _ (fun j => applyEvent_id je j)]
    cases hfi : r.jobs.find? (fun j => j.id == id) with
    | none => exact Nat.le_refl _
    | some j =>
      have hmem := List.mem_of_find?_eq_some hfi
      have h100 : j.progress ≤ 100 := (h j hmem).1
      show j.progress ≤ (if (j.id == eventId je) = true then applyEvent je j else j).progress
      by_cases hid : (j.id == eventId je) = true
      · rw [if_pos hid]
        exact applyEvent_progress_mono je j h100
      · rw [if_neg hid]

/-- Along any run, the observed progress sequence (with the current value
prepended) forms a non-decreasing chain. -/
theorem obsTrace_chain (id : Nat) :
    ∀ (more : List OrchEvent) (r : Registry), RegWF r →
    List.Chain' (· ≤ ·) (obsProgress r id :: obsTrace r id more)
  | [], _, _ => List.chain'_singleton _
  | e :: es, r, h => by
    rw [obsTrace]
    exact List.chain'_cons.2
      ⟨obs_mono r e id h,
       obsTrace_chain id es (orchStep r e) (regWF_orchStep r e h)⟩

/-! ## Claims -/

/-- Claim C1: the client polls `GET /api/progress/{id}` once per second;
after 3 progress-check errors it clears the interval, resets the
downloading flag and surfaces a terminal client-side error message; a
terminal status (`completed` or `error`) in a response also stops the
polling loop. -/
theorem C1_client_polling :
    POLL_INTERVAL_MS = 1000 ∧ MAX_RETRIES = 3 ∧
    (∀ s rs, s.intervalActive = true → s.retryCount < MAX_RETRIES →
      (pollRun s rs).intervalActive = true →
      (pollRun s rs).retryCount < MAX_RETRIES) ∧
    (∀ s rm, s.intervalActive = true → MAX_RETRIES ≤ s.retryCount + 1 →
      (pollStep s (.err rm)).intervalActive = false ∧
      (pollStep s (.err rm)).downloading = false ∧
      (pollStep s (.err rm)).error = rm.getD "Failed to get download progress") ∧
    (∀ s p m, s.intervalActive = true →
      (pollStep s (.ok "completed" p m)).intervalActive = false ∧
      (pollStep s (.ok "error" p m)).intervalActive = false) := by
  refine ⟨rfl, rfl, fun s rs h1 h2 => pollRun_retry_inv rs s (fun _ => h2),
    fun s rm ha hr => ?_, fun s p m ha => ?_⟩
  · simp [pollStep, ha, hr]
  · simp [pollStep, ha]

/-- Witness for C1 at a concrete state: the third error stops polling and
surfaces the fallback error text. -/
theorem C1_client_polling_witness :
    (pollStep ⟨2, true, true, 40, "", "", false⟩ (.err none)).intervalActive = false ∧
    (pollStep ⟨2, true, true, 40, "", "", false⟩ (.err none)).downloading = false ∧
    (pollStep ⟨2, true, true, 40, "", "", false⟩ (.err none)).error =
      Option.getD none "Failed to get download progress" :=
  C1_client_polling.2.2.2.1 ⟨2, true, true, 40, "", "", false⟩ none rfl (by decide)

/-- Claim C2: a missing URL, a URL rejected by `validateUrl` (hostname not
matching the selected platform, or unparseable), an invalid platform or an
invalid format is rejected synchronously before any POST to
`/api/download`, so no job is created for an invalid request. -/
theorem C2_invalid_submission_rejected (url platform format : String) (parsed : UrlParse)
    (h : url = "" ∨ validateUrl platform parsed ≠ none ∨
         platform ∉ PLATFORMS ∨ format ∉ FORMATS) :
    ∃ e, handleDownloadIntake url platform format parsed = .rejected e := by
  by_cases hu : url = ""
  · exact ⟨"Please enter a URL", by simp [handleDownloadIntake, hu]⟩
  · cases hv : validateUrl platform parsed with
    | some e => exact ⟨e, by simp [handleDownloadIntake, hu, hv]⟩
    | none =>
      by_cases hp : platform ∈ PLATFORMS
      · by_cases hf : format ∈ FORMATS
        · rcases h with h | h | h | h
          · exact absurd h hu
          · exact absurd hv h
          · exact absurd hp h
          · exact absurd hf h
        · exact ⟨"Invalid format selected", by
            simp [handleDownloadIntake, hu, hv, hp, hf]⟩
      · exact ⟨"Invalid platform selected", by
          simp [handleDownloadIntake, hu, hv, hp]⟩

/-- Witness for C2: a TikTok URL submitted with the YouTube platform
selected is rejected before the POST. -/
theorem C2_invalid_submission_rejected_witness :
    validateUrl "youtube" (.ok "www.tiktok.com") ≠ none ∧
    ∃ e, handleDownloadIntake "https://www.tiktok.com/@x/video/1" "youtube" "mp4"
      (.ok "www.tiktok.com") = .rejected e :=
  ⟨by decide, C2_invalid_submission_rejected "https://www.tiktok.com/@x/video/1"
    "youtube" "mp4" (.ok "www.tiktok.com") (Or.inr (Or.inl (by decide)))⟩

/-- Claim C9: the setup script removes `ffmpeg.zip` exactly when the HTTPS
download errors or the PowerShell extraction succeeds; a failed extraction
leaves the archive on disk. -/
theorem C9_zip_cleanup :
    FsAction.unlinkZip ∈ onDownloadError ∧
    ∀ d e, (FsAction.unlinkZip ∈ onDownloadFinish d e ↔ e = true) := by
  decide

/-- Claim C10: a rejected `POST /api/download` promise aborts
`handleDownload` with no handler: the downloading flag stays `true`, no
polling loop is started, and no error message is surfaced. -/
theorem C10_unhandled_post_rejection (s : ClientState) :
    handleDownloadPost s .rejected = { s with downloading := true, error := "" } ∧
    (handleDownloadPost s .rejected).downloading = true ∧
    (handleDownloadPost s .rejected).pollingStarted = s.pollingStarted ∧
    (handleDownloadPost s .rejected).error = "" :=
  ⟨rfl, rfl, rfl, rfl⟩

/-- Claim C6: a job exceeding the maximum wall-clock duration is forced to
`failed` with a timeout reason and its subprocess terminated, and that
maximum equals the client's end-to-end request timeout of 300000 ms. -/
theorem C6_wall_clock_timeout (j : Job) (elapsedMs : Nat)
    (h1 : MAX_JOB_WALL_MS < elapsedMs) (h2 : j.isActive = true) :
    (enforceTimeout j elapsedMs).1.status = .failed ∧
    (enforceTimeout j elapsedMs).1.message = "timeout" ∧
    (enforceTimeout j elapsedMs).2 = true ∧
    MAX_JOB_WALL_MS = CLIENT_TIMEOUT_MS ∧ CLIENT_TIMEOUT_MS = 300000 := by
  have h1' : (300000 : Nat) < elapsedMs := h1
  simp [enforceTimeout, h1', h2, MAX_JOB_WALL_MS, CLIENT_TIMEOUT_MS]

/-- Witness for C6: a running job at 300001 ms elapsed is failed with a
timeout reason and its subprocess terminated. -/
theorem C6_wall_clock_timeout_witness :
    (enforceTimeout ⟨0, demoKey, .running, 50, "", none⟩ 300001).1.status = .failed ∧
    (enforceTimeout ⟨0, demoKey, .running, 50, "", none⟩ 300001).1.message = "timeout" ∧
    (enforceTimeout ⟨0, demoKey, .running, 50, "", none⟩ 300001).2 = true ∧
    MAX_JOB_WALL_MS = CLIENT_TIMEOUT_MS ∧ CLIENT_TIMEOUT_MS = 300000 :=
  C6_wall_clock_timeout ⟨0, demoKey, .running, 50, "", none⟩ 300001 (by decide) (by decide)

/-- Claim C3: every `POST /api/download` response carries a `download_id`
and a status that is `started` or `in_progress`; attaching to an existing
queued/running job for the same key answers `in_progress` with that job's
id. -/
theorem C3_submission_response (r : Registry) (k : DedupKey) :
    ((postDownload r k).2.1.status = "started" ∨
     (postDownload r k).2.1.status = "in_progress") ∧
    (∀ id, findActive r k = some id →
      (postDownload r k).2.1.status = "in_progress" ∧
      (postDownload r k).2.1.download_id = id) := by
  unfold postDownload registerOrAttach
  cases hfa : findActive r k with
  | some jid =>
    refine ⟨Or.inr rfl, fun id hid => ?_⟩
    injection hid with hid
    subst hid
    exact ⟨rfl, rfl⟩
  | none =>
    refine ⟨Or.inl rfl, fun id hid => ?_⟩
    cases hid


/-- Witness for C3: submitting while a job with id 7 is running for the
same key answers `in_progress` with download id 7. -/
theorem C3_submission_response_witness :
    (postDownload ⟨[⟨7, demoKey, .running, 10, "", none⟩], 8⟩ demoKey).2.1.status =
      "in_progress" ∧
    (postDownload ⟨[⟨7, demoKey, .running, 10, "", none⟩], 8⟩ demoKey).2.1.download_id =
      7 :=
  (C3_submission_response ⟨[⟨7, demoKey, .running, 10, "", none⟩], 8⟩ demoKey).2 7
    (by decide)

/-- Claim C4: for every known job id the progress response is a
status/progress/message snapshot with status among queued, running,
completed, failed and progress in [0,100]; a job that terminates
unsuccessfully is reported with status `failed`. -/
theorem C4_progress_report (es : List OrchEvent) (r : Registry)
    (id : Nat) (reason : String) (snap : ProgressSnapshot) :
    (getProgress (runOrch es) id = some snap →
      snap.progress ≤ 100 ∧
      (snap.status = .queued ∨ snap.status = .running ∨
       snap.status = .completed ∨ snap.status = .failed)) ∧
    (getProgress r id = some snap → snap.status = .running →
      getProgress (orchStep r (.job (.fail id reason))) id =
        some ⟨.failed, snap.progress, reason⟩) := by
  constructor
  · intro hsnap
    unfold getProgress at hsnap
    cases hfi : (runOrch es).jobs.find? (fun j => j.id == id) with
    | none => rw [hfi] at hsnap; cases hsnap
    | some j =>
      rw [hfi] at hsnap
      injection hsnap with hsnap
      subst hsnap
      have hmem := List.mem_of_find?_eq_some hfi
      have hwf := regWF_runOrch es j hmem
      refine ⟨hwf.1, ?_⟩
      cases hst : j.status with
      | queued => exact Or.inl hst
      | running => exact Or.inr (Or.inl hst)
      | completed => exact Or.inr (Or.inr (Or.inl hst))
      | failed => exact Or.inr (Or.inr (Or.inr hst))
  · intro hsnap hrun
    unfold getProgress at hsnap ⊢
    cases hfi : r.jobs.find? (fun j => j.id == id) with
    | none => rw [hfi] at hsnap; cases hsnap
    | some j =>
      rw [hfi] at hsnap
      injection hsnap with hsnap
      subst hsnap
      have hid : (j.id == id) = true := by simpa using List.find?_some hfi
      have hideq : j.id = id := by simpa using hid
      have hst : j.status = .running := hrun
      show ((updateJob r id (applyEvent (.fail id reason))).jobs.find?
        fun jj => jj.id == id).map snapOf = _
      rw [find?_updateJob r id id _ (fun jj => applyEvent_id _ jj), hfi]
      simp [hid, hideq, applyEvent, hst, snapOf]

/-- Witness for C4: failing a running job with id 0 reports status `failed`
with the failure reason. -/
theorem C4_progress_report_witness :
    getProgress (orchStep ⟨[⟨0, demoKey, .running, 40, "downloading", none⟩], 1⟩
      (.job (.fail 0 "network error"))) 0 =
      some ⟨.failed, 40, "network error"⟩ :=
  (C4_progress_report [] ⟨[⟨0, demoKey, .running, 40, "downloading", none⟩], 1⟩
    0 "network error" ⟨.running, 40, "downloading"⟩).2 (by decide) rfl

/-- Claim C5: retrieval returns the file bytes exactly when the job's
status is `completed` (anything else answers conflict/not-found), and the
client navigates to the file endpoint only after observing `completed` in a
progress poll. -/
theorem C5_file_retrieval (es : List OrchEvent) (id : Nat)
    (s : PollState) (r : PollOutcome) :
    ((∃ b, retrieve (runOrch es) id = .fileBytes b) ↔
      (∃ snap, getProgress (runOrch es) id = some snap ∧
        snap.status = .completed)) ∧
    (s.fileRequested = false → (pollStep s r).fileRequested = true →
      s.intervalActive = true ∧ ∃ p m, r = .ok "completed" p m) := by
  constructor
  · unfold retrieve getProgress
    cases hfi : (runOrch es).jobs.find? (fun j => j.id == id) with
    | none =>
      constructor
      · rintro ⟨b, hb⟩; cases hb
      · rintro ⟨snap, hsnap, _⟩; cases hsnap
    | some j =>
      have hmem := List.mem_of_find?_eq_some hfi
      have hwf := regWF_runOrch es j hmem
      obtain ⟨h100, hlt, hcout⟩ := hwf
      obtain ⟨jid, jkey, jst, jpr, jmsg, jout⟩ := j
      constructor
      · rintro ⟨b, hb⟩
        cases jst with
        | completed => exact ⟨_, rfl, rfl⟩
        | queued => cases hb
        | running => cases hb
        | failed => cases hb
      · rintro ⟨snap, hsnap, hcomp⟩
        injection hsnap with hsnap
        subst hsnap
        have hst : jst = .completed := hcomp
        subst hst
        cases jout with
        | none => cases hcout rfl
        | some b => exact ⟨b, rfl⟩
  · intro hfr hreq
    by_cases ha : s.intervalActive = true
    · cases r with
      | ok status p m =>
        by_cases hc : status = "completed"
        · subst hc
          exact ⟨ha, p, m, rfl⟩
        · by_cases he : status = "error"
          · simp [pollStep, ha, hc, he, hfr] at hreq
          · simp [pollStep, ha, hc, he, hfr] at hreq
      | err rm =>
        by_cases hr : MAX_RETRIES ≤ s.retryCount + 1
        · simp [pollStep, ha, hr, hfr] at hreq
        · simp [pollStep, ha, hr, hfr] at hreq
    · have ha' : s.intervalActive = false := by
        cases hsa : s.intervalActive
        · rfl
        · exact absurd hsa ha
      simp [pollStep, ha', hfr] at hreq

/-- Witness for C5: a completed poll response triggers the (only) file
request, and retrieval on a run that completed job 0 returns bytes. -/
theorem C5_file_retrieval_witness :
    ((∃ b, retrieve (runOrch [OrchEvent.submit demoKey, OrchEvent.job (.start 0),
        OrchEvent.job (.complete 0 [7, 7, 7])]) 0 = .fileBytes b) ↔
      (∃ snap, getProgress (runOrch [OrchEvent.submit demoKey,
        OrchEvent.job (.start 0), OrchEvent.job (.complete 0 [7, 7, 7])]) 0 =
          some snap ∧ snap.status = .completed)) ∧
    (PollState.intervalActive ⟨0, true, true, 90, "", "", false⟩ = true ∧
      ∃ p m, PollOutcome.ok "completed" 100 "done" = PollOutcome.ok "completed" p m) :=
  ⟨(C5_file_retrieval [OrchEvent.submit demoKey, OrchEvent.job (.start 0),
      OrchEvent.job (.complete 0 [7, 7, 7])] 0
      ⟨0, true, true, 90, "", "", false⟩ (.ok "completed" 100 "done")).1,
   (C5_file_retrieval [OrchEvent.submit demoKey, OrchEvent.job (.start 0),
      OrchEvent.job (.complete 0 [7, 7, 7])] 0
      ⟨0, true, true, 90, "", "", false⟩ (.ok "completed" 100 "done")).2
      rfl (by decide)⟩

/-- Claim C7: per-job observed progress is monotonically non-decreasing: a
regressive adapter report is clamped to the last known value, and the
spec's example events 10, 35, 20, 80, 100 are observed as 10, 35, 35, 80,
100. -/
theorem C7_progress_monotone :
    (∀ es more id, List.Chain' (· ≤ ·) (obsTrace (runOrch es) id more)) ∧
    obsTrace (runOrch [OrchEvent.submit demoKey, OrchEvent.job (.start 0)]) 0
      (([10, 35, 20, 80, 100] : List Nat).map
        fun p => OrchEvent.job (.report 0 p "")) =
      [10, 35, 35, 80, 100] := by
  constructor
  · intro es more id
    exact (obsTrace_chain id more (runOrch es) (regWF_runOrch es)).tail
  · decide

/-- While a job is active for a key, every further submission of that key
attaches: the registry is unchanged, every caller gets the active job's id
with `in_progress`, and no adapter is launched. -/
theorem submitMany_attached (k : DedupKey) :
    ∀ (n : Nat) (r : Registry) (id : Nat), findActive r k = some id →
    submitMany r k n = (r, List.replicate n ⟨id, "in_progress"⟩, 0)
  | 0, _, _, _ => rfl
  | n + 1, r, id, h => by
    have hpd : postDownload r k = (r, ⟨id, "in_progress"⟩, false) := by
      unfold postDownload registerOrAttach
      rw [h]
    simp only [submitMany, hpd]
    rw [submitMany_attached k n r id h]
    simp [List.replicate_succ]

/-- A freshly created job is found active for its key. -/
theorem findActive_after_create (r : Registry) (k : DedupKey) :
    findActive ⟨⟨r.nextId, k, .queued, 0, "", none⟩ :: r.jobs, r.nextId + 1⟩ k =
      some r.nextId := by
  unfold findActive
  rw [List.find?_cons_of_pos _ (by simp [Job.isActive])]
  rfl

/-- Claim C8: for submissions sharing one dedup key while a job for the key
is queued/running, exactly one Fetcher Adapter process is launched and
every caller receives the same job id: starting with no active job, `n + 1`
back-to-back submissions launch exactly one adapter and all respond with
the first job's id; while a job is already active, further submissions
launch nothing and all respond with its id. -/
theorem C8_dedup_single_launch (r : Registry) (k : DedupKey) (n m jid : Nat) :
    (findActive r k = none →
      (submitMany r k (n + 1)).2.2 = 1 ∧
      ∀ resp ∈ (submitMany r k (n + 1)).2.1, resp.download_id = r.nextId) ∧
    (findActive r k = some jid →
      (submitMany r k m).2.2 = 0 ∧
      ∀ resp ∈ (submitMany r k m).2.1, resp.download_id = jid) := by
  constructor
  · intro h
    have hpd : postDownload r k =
        (⟨⟨r.nextId, k, .queued, 0, "", none⟩ :: r.jobs, r.nextId + 1⟩,
         ⟨r.nextId, "started"⟩, true) := by
      unfold postDownload registerOrAttach
      rw [h]
    have hrest := submitMany_attached k n
      ⟨⟨r.nextId, k, .queued, 0, "", none⟩ :: r.jobs, r.nextId + 1⟩ r.nextId
      (findActive_after_create r k)
    simp only [submitMany, hpd]
    rw [hrest]
    constructor
    · rfl
    · intro resp hresp
      simp only [List.mem_cons] at hresp
      rcases hresp with rfl | hresp
      · rfl
      · rw [List.eq_of_mem_replicate hresp]
  · intro h
    rw [submitMany_attached k m r jid h]
    refine ⟨rfl, fun resp hresp => ?_⟩
    rw [List.eq_of_mem_replicate hresp]

/-- Witness for C8: from the empty registry, three rapid submissions of the
spec's scenario request launch one adapter and all get job id 0; two more
while it is queued launch none and also get id 0. -/
theorem C8_dedup_single_launch_witness :
    ((submitMany emptyRegistry demoKey 3).2.2 = 1 ∧
      ∀ resp ∈ (submitMany emptyRegistry demoKey 3).2.1,
        resp.download_id = emptyRegistry.nextId) ∧
    ((submitMany (submitMany emptyRegistry demoKey 3).1 demoKey 2).2.2 = 0 ∧
      ∀ resp ∈ (submitMany (submitMany emptyRegistry demoKey 3).1 demoKey 2).2.1,
        resp.download_id = 0) :=
  ⟨(C8_dedup_single_launch emptyRegistry demoKey 2 2 0).1 (by decide),
   (C8_dedup_single_launch (submitMany emptyRegistry demoKey 3).1 demoKey 2 2 0).2
     (by decide)⟩

end YURLD
